import Mathlib

/-!
Verification of the fuzzysearch repository: a shallow embedding of the
search service (searchService.js), the search controller
(searchController.js) and the spec-modelled Fuse.js matcher, together with
theorems settling the spec claims about the ranking and pagination pipeline.
-/

namespace FuzzySearch

/-- An inventory record as stored in INVENTARIO_ACTUAL.json and scanned by
searchService.js: the product key, the two fuzzy-searched text fields, the
two categorical fields and the inclusive year range. -/
structure InventoryRecord where
  producto_id : String
  marca_vehiculo : String
  descripcion_corta : String
  condicion : String
  calidad_repuesto : String
  anio_desde : Int
  anio_hasta : Int
  deriving DecidableEq

/-- Clamp an index the way JavaScript Array.prototype.slice does: a negative
index counts from the end of the array, a positive one is capped at the
length. -/
def jsSliceIdx (len : Nat) (i : Int) : Nat :=
  if i < 0 then len - (-i).toNat else min i.toNat len

/-- JavaScript Array.prototype.slice(start, stop): the elements from the
clamped start index (inclusive) to the clamped stop index (exclusive). -/
def jsSlice {α : Type} (l : List α) (start stop : Int) : List α :=
  (l.take (jsSliceIdx l.length stop)).drop (jsSliceIdx l.length start)

/-- JavaScript Math.ceil(a / b) on integer inputs, as used for totalPages.
A zero divisor (unreachable through the controller, which replaces a parsed
0 by the default limit) is mapped to 0; JavaScript would produce Infinity or
NaN there. -/
def jsCeilDiv (a b : Int) : Int :=
  if b = 0 then 0 else -((-a).fdiv b)

/-- ASCII-uniform case folding for the case-insensitive matcher. -/
def lowerList (l : List Char) : List Char := l.map Char.toLower

/-- One inner step of the classic dynamic-programming edit-distance row
update: walks the text characters together with the tail of the previous
row, carrying the diagonal and left table entries. -/
def levRowStep (c : Char) : List Char → List Nat → Nat → Nat → List Nat
  | _, [], _, _ => []
  | [], _, _, _ => []
  | tc :: ts, pj :: ps, diag, left =>
    let cur := min (min (left + 1) (pj + 1)) (diag + (if c = tc then 0 else 1))
    cur :: levRowStep c ts ps pj cur

/-- The next full row of the edit-distance table after consuming one query
character. -/
def levNextRow (c : Char) (t : List Char) (prev : List Nat) : List Nat :=
  match prev with
  | [] => []
  | p0 :: ps => (p0 + 1) :: levRowStep c t ps p0 (p0 + 1)

/-- Levenshtein edit distance between two character lists, by row-wise
dynamic programming. -/
def levenshtein (s t : List Char) : Nat :=
  (s.foldl (fun row c => levNextRow c t row) (List.range (t.length + 1))).getLastD 0

/-- All suffixes of a character list, longest first. -/
def tailsOf : List Char → List (List Char)
  | [] => [[]]
  | c :: cs => (c :: cs) :: tailsOf cs

/-- All prefixes of a character list, shortest first. -/
def initsOf (l : List Char) : List (List Char) :=
  (List.range (l.length + 1)).map fun n => l.take n

/-- All contiguous substrings of a character list. -/
def subsOf (l : List Char) : List (List Char) :=
  (tailsOf l).flatMap initsOf

/-- Edit distance between the query and its best-aligned contiguous
substring of the text; the fold starts from the cost of the empty
alignment, which deletes the whole query. -/
def bestLev (q t : List Char) : Nat :=
  ((subsOf t).map (levenshtein q)).foldl min q.length

/-- Modelled from the spec: the SearchConfiguration of section 3 for the
third-party Fuse.js matcher, whose sources are not part of this repository.
The threshold is kept as the exact fraction thresholdNum / thresholdDen so
every comparison is exact; searchService.js configures threshold 0.3 and
minMatchCharLength 3, with ignoreLocation set, so no location penalty
applies. -/
structure FuseConfig where
  thresholdNum : Nat
  thresholdDen : Nat
  minMatchCharLength : Nat
  deriving DecidableEq

/-- Modelled from the spec: the per-field match of section 4.1, standing in
for the Fuse.js matcher absent from src. A query shorter than
minMatchCharLength never matches; otherwise the field matches iff the
normalized cost bestLev q t / length q is at most the threshold, the
comparison taken with denominators cleared. The returned value is the
un-normalized edit distance, the numerator of the cost over the denominator
length q. -/
def fieldLev (cfg : FuseConfig) (q t : List Char) : Option Nat :=
  if q.length < cfg.minMatchCharLength then none
  else
    let d := bestLev (lowerList q) (lowerList t)
    if d * cfg.thresholdDen ≤ cfg.thresholdNum * q.length then some d else none

/-- Modelled from the spec: the field scorer of section 4.2 with the weights
0.6 and 0.4 fixed in searchService.js. The result is the numerator of the
overall score over the fixed denominator 10 * length q: a record matching
both fields scores (6 b + 4 d), one matching a single field scores ten times
the cost of that field, mirroring the weighted sum divided by the sum of the
weights of the matching fields. -/
def recordScoreNum (cfg : FuseConfig) (q : List Char) (r : InventoryRecord) : Option Nat :=
  match fieldLev cfg q r.marca_vehiculo.data, fieldLev cfg q r.descripcion_corta.data with
  | some b, some d => some (6 * b + 4 * d)
  | some b, none => some (10 * b)
  | none, some d => some (10 * d)
  | none, none => none

/-- A Fuse.js search result: the record, its index in the store and its
score numerator. -/
structure FuseResult where
  item : InventoryRecord
  refIndex : Nat
  score : Nat
  deriving DecidableEq

/-- Ascending comparison on score with ties broken by store index; this is a
total order because indices are distinct, so the sort below is
deterministic and stable in the sense of section 4.2. -/
def resLe (a b : FuseResult) : Bool :=
  decide (a.score < b.score ∨ (a.score = b.score ∧ a.refIndex ≤ b.refIndex))

/-- Insert one result into an already sorted list of results. -/
def insertRes (x : FuseResult) : List FuseResult → List FuseResult
  | [] => [x]
  | y :: ys => if resLe x y then x :: y :: ys else y :: insertRes x ys

/-- Insertion sort by resLe. -/
def sortRes : List FuseResult → List FuseResult
  | [] => []
  | x :: xs => insertRes x (sortRes xs)

/-- The linear scan of section 4.3: score every record, keep the matches,
remember each store index. -/
def scoreAll (cfg : FuseConfig) (q : List Char) : Nat → List InventoryRecord → List FuseResult
  | _, [] => []
  | i, r :: rs =>
    match recordScoreNum cfg q r with
    | some s => ⟨r, i, s⟩ :: scoreAll cfg q (i + 1) rs
    | none => scoreAll cfg q (i + 1) rs

/-- Modelled from the spec: the ranker of section 4.3 over the Fuse.js
matcher absent from src: linear scan over the store, discard non-matches,
sort ascending by score with ties broken by store order. -/
def rankAndScore (cfg : FuseConfig) (inv : List InventoryRecord) (q : String) :
    List FuseResult :=
  sortRes (scoreAll cfg q.data 0 inv)

/-- Modelled from the spec: the Fuse.js search entry point with a result
limit, the candidateCap of section 4.3; a limit above -1 truncates the
ranked list and any other limit leaves it whole. -/
def fuseSearch (cfg : FuseConfig) (inv : List InventoryRecord) (q : String) (lim : Int) :
    List FuseResult :=
  if -1 < lim then jsSlice (rankAndScore cfg inv q) 0 lim else rankAndScore cfg inv q

/-- The option bag handed to SearchService.search by the controller. The
service reads only limit and page; threshold and fields are carried but
ignored. -/
structure SearchOptions where
  limit : Option Int := none
  page : Int := 1
  threshold : Option Nat := none
  fields : Option (List String) := none
  deriving DecidableEq

/-- The environment constants read by searchService.js:
DEFAULT_SEARCH_LIMIT (default 10) and MAX_SEARCH_LIMIT (default 100). -/
structure EnvConfig where
  defaultLimit : Int := 10
  maxLimit : Int := 100
  deriving DecidableEq

/-- One formatted result: the spread record plus its score, as built by the
map over paginatedResults; the matches spans are omitted, as section 4.1
permits. -/
structure FormattedItem where
  item : InventoryRecord
  score : Nat
  deriving DecidableEq

/-- Formatting of one Fuse result for the response. -/
def format (r : FuseResult) : FormattedItem := ⟨r.item, r.score⟩

/-- The data object of a search response. -/
structure SearchData where
  results : List FormattedItem
  total : Nat
  page : Int
  limit : Int
  totalPages : Int
  query : String
  searchTime : Nat
  deriving DecidableEq

/-- A search response. -/
structure SearchResult where
  success : Bool
  data : SearchData
  deriving DecidableEq

/-- SearchService.search from searchService.js. The two Date.now() readings
are the explicit inputs t1 and t2, and searchTime is their difference; the
call to this.fuse.search is the spec-modelled fuseSearch. -/
def search (cfg : FuseConfig) (env : EnvConfig) (inv : List InventoryRecord)
    (query : String) (opts : SearchOptions) (t1 t2 : Nat) : SearchResult :=
  let limit := opts.limit.getD env.defaultLimit
  let page := opts.page
  let actualLimit := min limit env.maxLimit
  let results := fuseSearch cfg inv query (actualLimit * page)
  let startIndex := (page - 1) * actualLimit
  let endIndex := startIndex + actualLimit
  let paginated := jsSlice results startIndex endIndex
  { success := true
    data :=
      { results := paginated.map format
        total := results.length
        page := page
        limit := actualLimit
        totalPages := jsCeilDiv (results.length : Int) actualLimit
        query := query
        searchTime := t2 - t1 } }

/-- SearchService.searchByBrand: delegates to search with fields set to the
brand column. -/
def searchByBrand (cfg : FuseConfig) (env : EnvConfig) (inv : List InventoryRecord)
    (brand : String) (opts : SearchOptions) (t1 t2 : Nat) : SearchResult :=
  search cfg env inv brand { opts with fields := some ["marca_vehiculo"] } t1 t2

/-- SearchService.searchByDescription: delegates to search with fields set
to the description column. -/
def searchByDescription (cfg : FuseConfig) (env : EnvConfig) (inv : List InventoryRecord)
    (description : String) (opts : SearchOptions) (t1 t2 : Nat) : SearchResult :=
  search cfg env inv description { opts with fields := some ["descripcion_corta"] } t1 t2

/-- The year test of searchWithYearRange: the search year falls within the
inclusive year range of the record. -/
def yearMatches (y : Int) (r : InventoryRecord) : Bool :=
  decide (r.anio_desde ≤ y ∧ y ≤ r.anio_hasta)

/-- The filter step of searchWithYearRange over a candidate list. -/
def yearFilter (y : Int) (l : List FuseResult) : List FuseResult :=
  l.filter fun res => yearMatches y res.item

/-- The data object of a year-range search response. -/
structure YearSearchData where
  results : List FormattedItem
  total : Nat
  page : Int
  limit : Int
  totalPages : Int
  query : String
  searchYear : Option Int
  searchTime : Nat
  yearFiltered : Bool
  deriving DecidableEq

/-- A year-range search response. -/
structure YearSearchResult where
  success : Bool
  data : YearSearchData
  deriving DecidableEq

/-- SearchService.searchWithYearRange from searchService.js. The controller
produces searchYear by parseInt and rejects NaN, so the isNaN guard always
passes and JavaScript truthiness of the number is the comparison with 0;
searchYear or null and the yearFiltered flag follow the same truthiness. -/
def searchWithYearRange (cfg : FuseConfig) (env : EnvConfig) (inv : List InventoryRecord)
    (query : String) (searchYear : Int) (opts : SearchOptions) (t1 t2 : Nat) :
    YearSearchResult :=
  let limit := opts.limit.getD env.defaultLimit
  let page := opts.page
  let actualLimit := min limit env.maxLimit
  let textResults := fuseSearch cfg inv query (actualLimit * page * 2)
  let filteredResults :=
    if searchYear ≠ 0 then yearFilter searchYear textResults else textResults
  let startIndex := (page - 1) * actualLimit
  let endIndex := startIndex + actualLimit
  let paginated := jsSlice filteredResults startIndex endIndex
  { success := true
    data :=
      { results := paginated.map format
        total := filteredResults.length
        page := page
        limit := actualLimit
        totalPages := jsCeilDiv (filteredResults.length : Int) actualLimit
        query := query
        searchYear := if searchYear = 0 then none else some searchYear
        searchTime := t2 - t1
        yearFiltered := decide (searchYear ≠ 0) } }

/-- Whitespace test for the trim of JavaScript String.prototype.trim,
restricted to the common whitespace characters. -/
def isWsChar (c : Char) : Bool :=
  c == ' ' || c == '\t' || c == '\n' || c == '\r'

/-- JavaScript String.prototype.trim on the character list of a string. -/
def jsTrim (s : String) : String :=
  String.mk (((s.data.dropWhile isWsChar).reverse.dropWhile isWsChar).reverse)

/-- JavaScript truthiness of an optional string parameter: absent and empty
are falsy. -/
def isTruthy : Option String → Bool
  | none => false
  | some s => s != ""

/-- One append step of the query building in advancedSearch: a truthy
parameter is appended followed by a space, a falsy one is skipped. -/
def appendParam (s : String) (o : Option String) : String :=
  match o with
  | some v => if v = "" then s else s ++ v ++ " "
  | none => s

/-- The concatenated query string built by advancedSearch and then
trimmed. -/
def advQuery (q brand condition quality : Option String) : String :=
  jsTrim (appendParam (appendParam (appendParam (appendParam "" q) brand) condition) quality)

/-- The year predicate of the advancedSearch result filter: it reads only
anio_desde and keeps an item iff that year is not below yearFrom and not
above yearTo, each bound only when present. -/
def advKeep (yearFrom yearTo : Option Int) (it : FormattedItem) : Bool :=
  (match yearFrom with
   | some yf => decide (yf ≤ it.item.anio_desde)
   | none => true) &&
  (match yearTo with
   | some yt => decide (it.item.anio_desde ≤ yt)
   | none => true)

/-- SearchController.advancedSearch from searchController.js: none models
the 400 rejection when no search parameter is truthy; otherwise the
parameters are concatenated into one query, search runs, and when a year
bound is present the already paginated results are filtered and total is
overwritten with the filtered page length. -/
def advancedSearch (cfg : FuseConfig) (env : EnvConfig) (inv : List InventoryRecord)
    (q brand condition quality : Option String) (yearFrom yearTo : Option Int)
    (opts : SearchOptions) (t1 t2 : Nat) : Option SearchResult :=
  if isTruthy q || isTruthy brand || isTruthy condition || isTruthy quality then
    let res := search cfg env inv (advQuery q brand condition quality) opts t1 t2
    if yearFrom.isSome || yearTo.isSome then
      let filtered := res.data.results.filter (advKeep yearFrom yearTo)
      some { res with data := { res.data with results := filtered, total := filtered.length } }
    else
      some res
  else
    none

/-- SearchService.getItemById: Array.prototype.find over the inventory;
none models the success-false Item-not-found value the service returns in
place of an exception. -/
def getItemById (inv : List InventoryRecord) (productId : String) : Option InventoryRecord :=
  inv.find? fun item => item.producto_id == productId

/-- The Fuse options built in SearchService.initialize: threshold 0.3, kept
as 3 over 10, and minMatchCharLength 3. -/
def repoFuse : FuseConfig :=
  { thresholdNum := 3, thresholdDen := 10, minMatchCharLength := 3 }

/-- The environment defaults: DEFAULT_SEARCH_LIMIT 10, MAX_SEARCH_LIMIT 100. -/
def defaultEnv : EnvConfig := {}

/-- A record builder for the concrete stores used in the evaluations. -/
def mkRec (pid marca descr : String) (yFrom yTo : Int) : InventoryRecord :=
  { producto_id := pid, marca_vehiculo := marca, descripcion_corta := descr,
    condicion := "Nuevo", calidad_repuesto := "Original",
    anio_desde := yFrom, anio_hasta := yTo }

/-- Three records whose brand field is exactly the query abc, so all three
match with score zero. -/
def inv3 : List InventoryRecord :=
  [mkRec "P1" "abc" "xyzzy" 2000 2005,
   mkRec "P2" "abc" "xyzzy" 2006 2010,
   mkRec "P3" "abc" "xyzzy" 2011 2015]

/-- Seven records whose brand field is exactly the query abc. -/
def inv7 : List InventoryRecord :=
  [mkRec "Q1" "abc" "xyzzy" 2000 2001,
   mkRec "Q2" "abc" "xyzzy" 2000 2001,
   mkRec "Q3" "abc" "xyzzy" 2000 2001,
   mkRec "Q4" "abc" "xyzzy" 2000 2001,
   mkRec "Q5" "abc" "xyzzy" 2000 2001,
   mkRec "Q6" "abc" "xyzzy" 2000 2001,
   mkRec "Q7" "abc" "xyzzy" 2000 2001]

/-- Two matching records with different starting years, for the
advancedSearch filter placement evaluation. -/
def inv2y : List InventoryRecord :=
  [mkRec "R1" "abc" "xyzzy" 2000 2020,
   mkRec "R2" "abc" "xyzzy" 2015 2020]

/-- The two-record store of the spec scenarios, with product keys A1 and
A2. -/
def demoInv : List InventoryRecord :=
  [mkRec "A1" "Toyota" "sensor oxigeno" 2015 2020,
   mkRec "A2" "Toyota" "manguera radiador" 2010 2014]

/-- Every element of a JavaScript slice is an element of the sliced list. -/
theorem mem_of_mem_jsSlice {α : Type} {x : α} {l : List α} {a b : Int}
    (h : x ∈ jsSlice l a b) : x ∈ l :=
  List.Sublist.mem h ((List.drop_sublist _ _).trans (List.take_sublist _ _))

/-- With a positive minimum match length, the empty query matches no record,
so the scoring scan returns no candidate. -/
theorem scoreAll_empty_query (cfg : FuseConfig) (h : 1 ≤ cfg.minMatchCharLength) :
    ∀ (n : Nat) (inv : List InventoryRecord), scoreAll cfg [] n inv = [] := by
  intro n inv
  induction inv generalizing n with
  | nil => rfl
  | cons r rs ih =>
    have hb : fieldLev cfg [] r.marca_vehiculo.data = none := by
      unfold fieldLev
      rw [if_pos]
      simpa using h
    have hd : fieldLev cfg [] r.descripcion_corta.data = none := by
      unfold fieldLev
      rw [if_pos]
      simpa using h
    simp [scoreAll, recordScoreNum, hb, hd, ih]

/-- The ranked and paginated shape of the data returned by
searchWithYearRange when the year filter is active: the page is a slice of
the year-filtered candidate list and total is that filtered list's length. -/
theorem searchWithYearRange_pipeline (cfg : FuseConfig) (env : EnvConfig)
    (inv : List InventoryRecord) (q : String) (Y : Int) (opts : SearchOptions)
    (t1 t2 : Nat) (hY : Y ≠ 0) :
    (searchWithYearRange cfg env inv q Y opts t1 t2).data.results =
      (jsSlice
        (yearFilter Y (fuseSearch cfg inv q
          (min (opts.limit.getD env.defaultLimit) env.maxLimit * opts.page * 2)))
        ((opts.page - 1) * min (opts.limit.getD env.defaultLimit) env.maxLimit)
        ((opts.page - 1) * min (opts.limit.getD env.defaultLimit) env.maxLimit +
          min (opts.limit.getD env.defaultLimit) env.maxLimit)).map format ∧
    (searchWithYearRange cfg env inv q Y opts t1 t2).data.total =
      (yearFilter Y (fuseSearch cfg inv q
        (min (opts.limit.getD env.defaultLimit) env.maxLimit * opts.page * 2))).length := by
  constructor <;> simp [searchWithYearRange, hY]

/-- C1: evaluation of the failing input. With three records all matching the
query, limit 2 and page 1, the code reports total 2 and totalPages 1 even
though the full match count is 3 (so the claimed values are total 3 and
totalPages 2), and the same query on page 2 reports total 3: total depends
on the requested page. -/
theorem c1_total_counted_after_cap_eval :
    (search repoFuse defaultEnv inv3 "abc" { limit := some 2, page := 1 } 0 0).data.total = 2 ∧
    (search repoFuse defaultEnv inv3 "abc" { limit := some 2, page := 1 } 0 0).data.totalPages = 1 ∧
    (rankAndScore repoFuse inv3 "abc").length = 3 ∧
    (search repoFuse defaultEnv inv3 "abc" { limit := some 2, page := 2 } 0 0).data.total = 3 := by
  decide

/-- C3: when the year filter is active, a candidate is kept by the filter
iff the target year lies in the record's inclusive year range: every kept
candidate satisfies the bounds, every candidate excluded by the filter
violates them, and every record on the returned page satisfies them. -/
theorem c3_year_filter_iff (Y : Int) (l : List FuseResult) (cfg : FuseConfig)
    (env : EnvConfig) (inv : List InventoryRecord) (q : String) (opts : SearchOptions)
    (t1 t2 : Nat) (hY : Y ≠ 0) :
    (∀ r ∈ yearFilter Y l, r.item.anio_desde ≤ Y ∧ Y ≤ r.item.anio_hasta) ∧
    (∀ r ∈ l, r ∉ yearFilter Y l → ¬(r.item.anio_desde ≤ Y ∧ Y ≤ r.item.anio_hasta)) ∧
    (∀ it ∈ (searchWithYearRange cfg env inv q Y opts t1 t2).data.results,
      it.item.anio_desde ≤ Y ∧ Y ≤ it.item.anio_hasta) := by
  refine ⟨?_, ?_, ?_⟩
  · intro r hr
    have h := (List.mem_filter.mp hr).2
    simpa [yearMatches] using h
  · intro r hr hnot hcond
    exact hnot (List.mem_filter.mpr ⟨hr, by simpa [yearMatches] using hcond⟩)
  · intro it hit
    rw [(searchWithYearRange_pipeline cfg env inv q Y opts t1 t2 hY).1] at hit
    obtain ⟨fr, hfr, hfmt⟩ := List.mem_map.mp hit
    have hmem := mem_of_mem_jsSlice hfr
    have h := (List.mem_filter.mp hmem).2
    have : fr.item.anio_desde ≤ Y ∧ Y ≤ fr.item.anio_hasta := by
      simpa [yearMatches] using h
    rw [← hfmt]
    exact this

/-- C3 witness: the theorem applied at the spec scenario with target year
2012 over the two-record demo store. -/
theorem c3_year_filter_iff_witness :
    (∀ r ∈ yearFilter 2012 (rankAndScore repoFuse demoInv "Toyota"),
      r.item.anio_desde ≤ 2012 ∧ 2012 ≤ r.item.anio_hasta) ∧
    (∀ r ∈ rankAndScore repoFuse demoInv "Toyota",
      r ∉ yearFilter 2012 (rankAndScore repoFuse demoInv "Toyota") →
      ¬(r.item.anio_desde ≤ 2012 ∧ 2012 ≤ r.item.anio_hasta)) ∧
    (∀ it ∈ (searchWithYearRange repoFuse defaultEnv demoInv "Toyota" 2012 {} 0 0).data.results,
      it.item.anio_desde ≤ 2012 ∧ 2012 ≤ it.item.anio_hasta) :=
  c3_year_filter_iff 2012 (rankAndScore repoFuse demoInv "Toyota") repoFuse defaultEnv
    demoInv "Toyota" {} 0 0 (by decide)

/-- C5: the fields restriction passed by searchByBrand and
searchByDescription is ignored by search, so both variants return exactly
the result of the plain search on the same query and options. -/
theorem c5_field_variants_ignore_fields (cfg : FuseConfig) (env : EnvConfig)
    (inv : List InventoryRecord) (q : String) (opts : SearchOptions) (t1 t2 : Nat) :
    searchByBrand cfg env inv q opts t1 t2 = search cfg env inv q opts t1 t2 ∧
    searchByDescription cfg env inv q opts t1 t2 = search cfg env inv q opts t1 t2 := by
  cases opts
  exact ⟨rfl, rfl⟩

/-- C6 counterexample: the limit -5 is neither clamped nor rejected: the
search succeeds, reports limit -5 and, over a store with seven matching
records, a totalPages of -1. -/
theorem c6_negative_limit_not_clamped_cex :
    (search repoFuse defaultEnv inv7 "abc" { limit := some (-5), page := 1 } 0 0).data.limit
        = -5 ∧
    (search repoFuse defaultEnv inv7 "abc" { limit := some (-5), page := 1 } 0 0).data.totalPages
        = -1 ∧
    (search repoFuse defaultEnv inv7 "abc" { limit := some (-5), page := 1 } 0 0).success
        = true := by
  decide

/-- C6 amended: the effective limit is exactly the minimum of the requested
limit (defaulted when absent) and the configured maximum, computed before
any other work, and the search never rejects: a non-positive limit flows
through this minimum unchanged. -/
theorem c6_limit_clamped_to_max_only (cfg : FuseConfig) (env : EnvConfig)
    (inv : List InventoryRecord) (q : String) (opts : SearchOptions) (t1 t2 : Nat) :
    (search cfg env inv q opts t1 t2).data.limit =
      min (opts.limit.getD env.defaultLimit) env.maxLimit ∧
    (search cfg env inv q opts t1 t2).success = true :=
  ⟨rfl, rfl⟩

/-- C7: with any positive minimum match length, as the spec requires of a
SearchConfiguration, the empty query matches nothing: the search returns
total 0 and an empty page, and does not fail. -/
theorem c7_empty_query_no_candidates (cfg : FuseConfig) (env : EnvConfig)
    (inv : List InventoryRecord) (opts : SearchOptions) (t1 t2 : Nat)
    (h : 1 ≤ cfg.minMatchCharLength) :
    (search cfg env inv "" opts t1 t2).data.total = 0 ∧
    (search cfg env inv "" opts t1 t2).data.results = [] := by
  have hrank : rankAndScore cfg inv "" = [] := by
    show sortRes (scoreAll cfg "".data 0 inv) = []
    rw [show ("".data : List Char) = [] from rfl, scoreAll_empty_query cfg h]
    rfl
  have hfuse : ∀ lim, fuseSearch cfg inv "" lim = [] := by
    intro lim
    unfold fuseSearch
    rw [hrank]
    split <;> simp [jsSlice, jsSliceIdx]
  constructor
  · show (fuseSearch cfg inv "" _).length = 0
    rw [hfuse]
    rfl
  · show (jsSlice (fuseSearch cfg inv "" _) _ _).map format = []
    rw [hfuse]
    simp [jsSlice, jsSliceIdx]

/-- C7 witness: the theorem applied to the demo store with the repository
configuration. -/
theorem c7_empty_query_no_candidates_witness :
    (search repoFuse defaultEnv demoInv "" {} 0 0).data.total = 0 ∧
    (search repoFuse defaultEnv demoInv "" {} 0 0).data.results = [] :=
  c7_empty_query_no_candidates repoFuse defaultEnv demoInv {} 0 0 (by decide)

/-- C8: lookupById returns a record bearing the requested key whenever one
exists in the store, and the explicit not-found value none, not an
exception, when no record has that key. -/
theorem c8_lookup_by_id (inv : List InventoryRecord) (pid : String) :
    ((∃ r ∈ inv, r.producto_id = pid) →
      ∃ r, getItemById inv pid = some r ∧ r ∈ inv ∧ r.producto_id = pid) ∧
    ((∀ r ∈ inv, r.producto_id ≠ pid) → getItemById inv pid = none) := by
  constructor
  · rintro ⟨r, hr, hid⟩
    have hsome : (inv.find? fun item => item.producto_id == pid).isSome :=
      List.find?_isSome.mpr ⟨r, hr, by simpa using hid⟩
    obtain ⟨r', hfind⟩ := Option.isSome_iff_exists.mp hsome
    exact ⟨r', hfind, List.mem_of_find?_eq_some hfind,
      by simpa using List.find?_some hfind⟩
  · intro h
    apply List.find?_eq_none.mpr
    intro x hx
    simpa using h x hx

/-- C8 witness: the theorem applied at the spec scenario: key A1 is found in
the demo store, key ZZZ yields the not-found value. -/
theorem c8_lookup_by_id_witness :
    (∃ r, getItemById demoInv "A1" = some r ∧ r ∈ demoInv ∧ r.producto_id = "A1") ∧
    getItemById demoInv "ZZZ" = none :=
  ⟨(c8_lookup_by_id demoInv "A1").1
      ⟨mkRec "A1" "Toyota" "sensor oxigeno" 2015 2020, by decide, by decide⟩,
   (c8_lookup_by_id demoInv "ZZZ").2 (by decide)⟩

/-- C10 counterexample: two calls on the same store, query and options but
with different wall-clock readings return different values: the searchTime
field differs, so the results are not identical in every field. -/
theorem c10_searchtime_differs_cex :
    (search repoFuse defaultEnv inv3 "abc" {} 0 5).data.searchTime = 5 ∧
    (search repoFuse defaultEnv inv3 "abc" {} 10 17).data.searchTime = 7 ∧
    search repoFuse defaultEnv inv3 "abc" {} 0 5 ≠
      search repoFuse defaultEnv inv3 "abc" {} 10 17 := by
  decide

/-- C10 amended: for a fixed store, query and configuration, repeated calls
agree on every field except searchTime, which reports the wall-clock
duration of the call. -/
theorem c10_determinism_modulo_searchtime (cfg : FuseConfig) (env : EnvConfig)
    (inv : List InventoryRecord) (q : String) (opts : SearchOptions)
    (t1 t2 s1 s2 : Nat) :
    (search cfg env inv q opts t1 t2).success = (search cfg env inv q opts s1 s2).success ∧
    (search cfg env inv q opts t1 t2).data.results =
      (search cfg env inv q opts s1 s2).data.results ∧
    (search cfg env inv q opts t1 t2).data.total = (search cfg env inv q opts s1 s2).data.total ∧
    (search cfg env inv q opts t1 t2).data.page = (search cfg env inv q opts s1 s2).data.page ∧
    (search cfg env inv q opts t1 t2).data.limit = (search cfg env inv q opts s1 s2).data.limit ∧
    (search cfg env inv q opts t1 t2).data.totalPages =
      (search cfg env inv q opts s1 s2).data.totalPages ∧
    (search cfg env inv q opts t1 t2).data.query = (search cfg env inv q opts s1 s2).data.query :=
  ⟨rfl, rfl, rfl, rfl, rfl, rfl, rfl⟩

/-- Membership in an insertion step. -/
theorem mem_insertRes {x y : FuseResult} {l : List FuseResult} :
    x ∈ insertRes y l ↔ x = y ∨ x ∈ l := by
  induction l with
  | nil => simp [insertRes]
  | cons z zs ih =>
    simp only [insertRes]
    split
    · simp [List.mem_cons]
    · simp only [List.mem_cons, ih]
      tauto

/-- The sort is a permutation in the weak sense needed here: it preserves
membership. -/
theorem mem_sortRes {x : FuseResult} {l : List FuseResult} : x ∈ sortRes l ↔ x ∈ l := by
  induction l with
  | nil => simp [sortRes]
  | cons y ys ih => simp [sortRes, mem_insertRes, ih]

/-- A record appears among the items of the scoring scan iff it is in the
store and the field scorer accepts it. -/
theorem mem_map_scoreAll {cfg : FuseConfig} {q : List Char} {a : InventoryRecord} :
    ∀ {n : Nat} {inv : List InventoryRecord},
      a ∈ (scoreAll cfg q n inv).map (·.item) ↔
        a ∈ inv ∧ (recordScoreNum cfg q a).isSome := by
  intro n inv
  induction inv generalizing n with
  | nil => simp [scoreAll]
  | cons r rs ih =>
    cases hsc : recordScoreNum cfg q r with
    | some s =>
      simp only [scoreAll, hsc, List.map_cons, List.mem_cons, ih]
      constructor
      · rintro (rfl | ⟨hm, hs⟩)
        · exact ⟨Or.inl rfl, by simp [hsc]⟩
        · exact ⟨Or.inr hm, hs⟩
      · rintro ⟨rfl | hm, hs⟩
        · exact Or.inl rfl
        · exact Or.inr ⟨hm, hs⟩
    | none =>
      simp only [scoreAll, hsc, List.mem_cons, ih]
      constructor
      · rintro ⟨hm, hs⟩
        exact ⟨Or.inr hm, hs⟩
      · rintro ⟨rfl | hm, hs⟩
        · rw [hsc] at hs
          simp at hs
        · exact ⟨hm, hs⟩

/-- A record appears among the ranked items iff it is in the store and the
field scorer accepts it. -/
theorem mem_map_rankAndScore {cfg : FuseConfig} {inv : List InventoryRecord} {q : String}
    {a : InventoryRecord} :
    a ∈ (rankAndScore cfg inv q).map (·.item) ↔
      a ∈ inv ∧ (recordScoreNum cfg q.data a).isSome := by
  unfold rankAndScore
  rw [show (∀ x, x ∈ (sortRes (scoreAll cfg q.data 0 inv)).map (·.item) ↔
      x ∈ (scoreAll cfg q.data 0 inv).map (·.item)) from fun x => by
    simp [List.mem_map, mem_sortRes]]
  exact mem_map_scoreAll

/-- Raising the threshold keeps every field match: the cost of a field does
not depend on the threshold, only the final gate does. The thresholds are
the fractions c1 and c2 with positive denominators, compared with
denominators cleared. -/
theorem fieldLev_isSome_mono {c1 c2 : FuseConfig}
    (hm : c1.minMatchCharLength = c2.minMatchCharLength) (hd1 : 0 < c1.thresholdDen)
    (hthr : c1.thresholdNum * c2.thresholdDen ≤ c2.thresholdNum * c1.thresholdDen)
    {q t : List Char} (h : (fieldLev c1 q t).isSome) : (fieldLev c2 q t).isSome := by
  simp only [fieldLev] at h ⊢
  rw [← hm]
  split at h
  · simp at h
  · rename_i hlen
    rw [if_neg hlen]
    split at h
    · rename_i hth
      rw [if_pos ?_]
      · rfl
      · refine Nat.le_of_mul_le_mul_right ?_ hd1
        calc bestLev (lowerList q) (lowerList t) * c2.thresholdDen * c1.thresholdDen
            = bestLev (lowerList q) (lowerList t) * c1.thresholdDen * c2.thresholdDen := by
              ring
          _ ≤ c1.thresholdNum * q.length * c2.thresholdDen :=
              Nat.mul_le_mul_right _ hth
          _ = c1.thresholdNum * c2.thresholdDen * q.length := by ring
          _ ≤ c2.thresholdNum * c1.thresholdDen * q.length :=
              Nat.mul_le_mul_right _ hthr
          _ = c2.thresholdNum * q.length * c1.thresholdDen := by ring
    · simp at h

/-- A record is accepted by the field scorer iff at least one of the two
fields matches. -/
theorem recordScoreNum_isSome_iff {cfg : FuseConfig} {q : List Char} {r : InventoryRecord} :
    (recordScoreNum cfg q r).isSome ↔
      (fieldLev cfg q r.marca_vehiculo.data).isSome ∨
        (fieldLev cfg q r.descripcion_corta.data).isSome := by
  unfold recordScoreNum
  cases fieldLev cfg q r.marca_vehiculo.data <;>
    cases fieldLev cfg q r.descripcion_corta.data <;> simp

/-- Raising the threshold keeps every record match. -/
theorem recordScoreNum_isSome_mono {c1 c2 : FuseConfig}
    (hm : c1.minMatchCharLength = c2.minMatchCharLength) (hd1 : 0 < c1.thresholdDen)
    (hthr : c1.thresholdNum * c2.thresholdDen ≤ c2.thresholdNum * c1.thresholdDen)
    {q : List Char} {r : InventoryRecord} (h : (recordScoreNum c1 q r).isSome) :
    (recordScoreNum c2 q r).isSome := by
  rw [recordScoreNum_isSome_iff] at h ⊢
  rcases h with h | h
  · exact Or.inl (fieldLev_isSome_mono hm hd1 hthr h)
  · exact Or.inr (fieldLev_isSome_mono hm hd1 hthr h)

/-- C9: raising the threshold, with the minimum match length held fixed,
never removes a record from the match set: every record appearing in the
ranked candidates under the lower threshold c1 also appears under the
higher threshold c2. The thresholds are compared as fractions with
positive denominators and denominators cleared. -/
theorem c9_threshold_monotone (inv : List InventoryRecord) (q : String)
    (c1 c2 : FuseConfig) (hm : c1.minMatchCharLength = c2.minMatchCharLength)
    (hd1 : 0 < c1.thresholdDen) (_hd2 : 0 < c2.thresholdDen)
    (hthr : c1.thresholdNum * c2.thresholdDen ≤ c2.thresholdNum * c1.thresholdDen)
    (r : InventoryRecord) (hr : r ∈ (rankAndScore c1 inv q).map (·.item)) :
    r ∈ (rankAndScore c2 inv q).map (·.item) := by
  rw [mem_map_rankAndScore] at hr ⊢
  exact ⟨hr.1, recordScoreNum_isSome_mono hm hd1 hthr hr.2⟩

/-- C9 witness: the record P1 matches abc under threshold 3/10 and, by the
theorem, still matches under the raised threshold 5/10. -/
theorem c9_threshold_monotone_witness :
    mkRec "P1" "abc" "xyzzy" 2000 2005 ∈
      (rankAndScore { thresholdNum := 5, thresholdDen := 10, minMatchCharLength := 3 }
        inv3 "abc").map (·.item) :=
  c9_threshold_monotone inv3 "abc" repoFuse
    { thresholdNum := 5, thresholdDen := 10, minMatchCharLength := 3 }
    (by decide) (by decide) (by decide) (by decide)
    (mkRec "P1" "abc" "xyzzy" 2000 2005) (by decide)

/-- A slice with natural bounds is an ordinary take and drop. -/
theorem jsSliceIdx_natCast (len a : Nat) : jsSliceIdx len ((a : Nat) : Int) = min a len := by
  unfold jsSliceIdx
  rw [if_neg (by omega), Int.toNat_natCast]

/-- A JavaScript slice with natural bounds is the usual drop of a take. -/
theorem jsSlice_natCast {α : Type} (l : List α) (a b : Nat) :
    jsSlice l ((a : Nat) : Int) ((b : Nat) : Int) = (l.take b).drop a := by
  unfold jsSlice
  rw [jsSliceIdx_natCast, jsSliceIdx_natCast]
  have h1 : l.take (min b l.length) = l.take b := by
    rw [List.take_eq_take]
    omega
  rw [h1]
  rcases le_or_lt a l.length with ha | ha
  · rw [min_eq_left ha]
  · rw [min_eq_right (le_of_lt ha)]
    have hlen : (l.take b).length ≤ l.length := by
      simp [List.length_take]
    rw [List.drop_eq_nil_of_le hlen, List.drop_eq_nil_of_le (le_trans hlen (le_of_lt ha))]

/-- The page slice of the cap-truncated ranked list is the corresponding
chunk of the untruncated list: the cap limit times page never cuts into the
requested page. -/
theorem drop_take_chunk {α : Type} (l : List α) (L i : Nat) :
    ((l.take ((i + 1) * L)).take (i * L + L)).drop (i * L) = (l.drop (i * L)).take L := by
  rw [List.take_take]
  have hmin : min (i * L + L) ((i + 1) * L) = i * L + L := by
    rw [Nat.succ_mul]
    exact Nat.min_self _
  rw [hmin, List.drop_take]
  congr 1
  omega

/-- Concatenating the chunks of length L covering a list reproduces the
list. -/
theorem chunks_join {α : Type} (L : Nat) (_hL : 0 < L) :
    ∀ (P : Nat) (l : List α), l.length ≤ P * L →
      (List.range P).flatMap (fun i => (l.drop (i * L)).take L) = l := by
  intro P
  induction P with
  | zero =>
    intro l hl
    rw [Nat.zero_mul] at hl
    simp only [List.range_zero, List.flatMap_nil]
    exact (List.length_eq_zero.mp (Nat.le_zero.mp hl)).symm
  | succ P ih =>
    intro l hl
    rw [List.range_succ_eq_map, List.flatMap_cons, List.flatMap_map]
    simp only [Nat.zero_mul, List.drop_zero]
    have hch : ∀ i : Nat, (l.drop (Nat.succ i * L)).take L =
        ((l.drop L).drop (i * L)).take L := by
      intro i
      rw [List.drop_drop]
      congr 2
      rw [Nat.succ_mul, Nat.add_comm]
    simp only [hch]
    rw [ih (l.drop L) (by rw [Nat.succ_mul] at hl; simp only [List.length_drop]; omega)]
    exact List.take_append_drop L l

/-- The ceiling of M over L, times L, dominates M. -/
theorem le_ceil_mul (M L : Nat) (hL : 0 < L) : M ≤ ((M + L - 1) / L) * L := by
  rcases Nat.eq_zero_or_pos M with h | h
  · subst h
    exact Nat.zero_le _
  · have hdm := Nat.div_add_mod (M + L - 1) L
    have hmod : (M + L - 1) % L < L := Nat.mod_lt _ hL
    rw [Nat.mul_comm]
    revert hdm hmod
    generalize (M + L - 1) / L = qq
    generalize (M + L - 1) % L = rr
    generalize L * qq = z
    intro hdm hmod
    omega

/-- The results of a search for page i + 1 with an effective limit L are
exactly the chunk of the full ranked list from index i times L: the Fuse
cap of limit times page never cuts into the requested page. -/
theorem search_page_chunk (cfg : FuseConfig) (env : EnvConfig) (inv : List InventoryRecord)
    (q : String) (L : Nat) (hL : 0 < L) (hmax : (L : Int) ≤ env.maxLimit)
    (i : Nat) (th : Option Nat) (fs : Option (List String)) (t1 t2 : Nat) :
    (search cfg env inv q ⟨some (L : Int), ((i : Int) + 1), th, fs⟩ t1 t2).data.results =
      (((rankAndScore cfg inv q).drop (i * L)).take L).map format := by
  have hminL : min ((L : Nat) : Int) env.maxLimit = ((L : Nat) : Int) := min_eq_left hmax
  have hpos : (-1 : Int) < ((L : Nat) : Int) * (((i : Nat) : Int) + 1) := by
    have h0 : (0 : Int) ≤ ((L : Nat) : Int) * (((i : Nat) : Int) + 1) := by positivity
    omega
  simp only [search, fuseSearch, Option.getD_some, hminL]
  rw [if_pos hpos]
  have hcap : ((L : Nat) : Int) * (((i : Nat) : Int) + 1) = (((i + 1) * L : Nat) : Int) := by
    push_cast
    ring
  have hzero : (0 : Int) = ((0 : Nat) : Int) := rfl
  have hs : (((i : Nat) : Int) + 1 - 1) * ((L : Nat) : Int) = ((i * L : Nat) : Int) := by
    push_cast
    ring
  have he : (((i : Nat) : Int) + 1 - 1) * ((L : Nat) : Int) + ((L : Nat) : Int) =
      ((i * L + L : Nat) : Int) := by
    push_cast
    ring
  rw [hcap, hzero, jsSlice_natCast, List.drop_zero, he, hs, jsSlice_natCast, drop_take_chunk]

/-- C2 counterexample: with three matching records and limit 1, the call
for page 1 reports totalPages 1 because totalPages is computed from the
cap-truncated candidate list, so concatenating the pages 1 through
totalPages returns one result and omits two of the three ranked
candidates. -/
theorem c2_pagination_roundtrip_cex :
    (search repoFuse defaultEnv inv3 "abc" { limit := some 1, page := 1 } 0 0).data.totalPages
        = 1 ∧
    ((List.range
          (search repoFuse defaultEnv inv3 "abc"
            { limit := some 1, page := 1 } 0 0).data.totalPages.toNat).flatMap
        (fun i => (search repoFuse defaultEnv inv3 "abc"
          { limit := some 1, page := ((i : Int) + 1) } 0 0).data.results)).length = 1 ∧
    (rankAndScore repoFuse inv3 "abc").length = 3 := by
  decide

/-- C2 amended: for the unfiltered search, concatenating the pages 1
through P, where P is the ceiling of the full match count M over the
effective limit L computed from M itself rather than from the totalPages
metadata of any single call, reproduces the full ranked candidate sequence
exactly once, with no duplicates or omissions. -/
theorem c2_pagination_roundtrip_amended (cfg : FuseConfig) (env : EnvConfig)
    (inv : List InventoryRecord) (q : String) (L : Nat) (t1 t2 : Nat)
    (hL : 0 < L) (hmax : (L : Int) ≤ env.maxLimit) :
    (List.range (((rankAndScore cfg inv q).length + L - 1) / L)).flatMap
        (fun i => (search cfg env inv q
          ⟨some ((L : Nat) : Int), (((i : Nat) : Int) + 1), none, none⟩ t1 t2).data.results)
      = (rankAndScore cfg inv q).map format := by
  have hpage : ∀ i : Nat,
      (search cfg env inv q
          ⟨some ((L : Nat) : Int), (((i : Nat) : Int) + 1), none, none⟩ t1 t2).data.results =
        (((rankAndScore cfg inv q).drop (i * L)).take L).map format :=
    fun i => search_page_chunk cfg env inv q L hL hmax i none none t1 t2
  simp only [hpage]
  rw [← List.map_flatMap]
  rw [chunks_join L hL _ _ (le_ceil_mul _ L hL)]

/-- C2 amended witness: with the three-record store, the query abc and
limit 2, the two pages concatenate to the full ranked sequence. -/
theorem c2_pagination_roundtrip_amended_witness :
    (List.range (((rankAndScore repoFuse inv3 "abc").length + 2 - 1) / 2)).flatMap
        (fun i => (search repoFuse defaultEnv inv3 "abc"
          ⟨some ((2 : Nat) : Int), (((i : Nat) : Int) + 1), none, none⟩ 0 0).data.results)
      = (rankAndScore repoFuse inv3 "abc").map format :=
  c2_pagination_roundtrip_amended repoFuse defaultEnv inv3 "abc" 2 0 0
    (by decide) (by decide)

/-- C4 counterexample: advancedSearch with a year bound filters the already
paginated page: with two matching records, limit 1 and yearFrom 2010 the
returned page is empty with total 0, even though one ranked candidate
passes the same year bound and would be returned if the filter ran before
pagination. -/
theorem c4_filter_after_pagination_cex :
    ((advancedSearch repoFuse defaultEnv inv2y (some "abc") none none none (some 2010) none
        { limit := some 1, page := 1 } 0 0).map
      (fun res => (res.data.results, res.data.total))) = some ([], 0) ∧
    (((rankAndScore repoFuse inv2y "abc").map format).filter
        (advKeep (some 2010) none)).length = 1 := by
  decide

/-- C4 amended: only searchWithYearRange applies its year filter between
ranking and pagination: its page is a slice of the year-filtered candidate
list and its total is the filtered list length. advancedSearch instead
applies its year bounds to the already paginated page of search and
overwrites total with the length of that filtered page. -/
theorem c4_year_filter_placement (cfg : FuseConfig) (env : EnvConfig)
    (inv : List InventoryRecord) (q : String) (Y : Int) (opts : SearchOptions)
    (t1 t2 : Nat) (aq ab ac aqa : Option String) (yearFrom yearTo : Option Int)
    (hY : Y ≠ 0)
    (htr : (isTruthy aq || isTruthy ab || isTruthy ac || isTruthy aqa) = true)
    (hyr : (yearFrom.isSome || yearTo.isSome) = true) :
    ((searchWithYearRange cfg env inv q Y opts t1 t2).data.results =
        (jsSlice
          (yearFilter Y (fuseSearch cfg inv q
            (min (opts.limit.getD env.defaultLimit) env.maxLimit * opts.page * 2)))
          ((opts.page - 1) * min (opts.limit.getD env.defaultLimit) env.maxLimit)
          ((opts.page - 1) * min (opts.limit.getD env.defaultLimit) env.maxLimit +
            min (opts.limit.getD env.defaultLimit) env.maxLimit)).map format ∧
      (searchWithYearRange cfg env inv q Y opts t1 t2).data.total =
        (yearFilter Y (fuseSearch cfg inv q
          (min (opts.limit.getD env.defaultLimit) env.maxLimit * opts.page * 2))).length) ∧
    ((advancedSearch cfg env inv aq ab ac aqa yearFrom yearTo opts t1 t2).map
        (fun res => res.data.results) =
      some ((search cfg env inv (advQuery aq ab ac aqa) opts t1 t2).data.results.filter
        (advKeep yearFrom yearTo)) ∧
      (advancedSearch cfg env inv aq ab ac aqa yearFrom yearTo opts t1 t2).map
        (fun res => res.data.total) =
      some (((search cfg env inv (advQuery aq ab ac aqa) opts t1 t2).data.results.filter
        (advKeep yearFrom yearTo)).length)) := by
  refine ⟨searchWithYearRange_pipeline cfg env inv q Y opts t1 t2 hY, ?_, ?_⟩
  all_goals
    simp only [advancedSearch]
    rw [if_pos htr, if_pos hyr]
    rfl

/-- C4 amended witness: the placement facts at the concrete inputs of the
counterexample store, target year 2012, query abc and yearFrom 2010. -/
theorem c4_year_filter_placement_witness :
    ((searchWithYearRange repoFuse defaultEnv inv2y "abc" 2012 {} 0 0).data.results =
        (jsSlice
          (yearFilter 2012 (fuseSearch repoFuse inv2y "abc"
            (min ((({} : SearchOptions).limit).getD defaultEnv.defaultLimit)
                defaultEnv.maxLimit * ({} : SearchOptions).page * 2)))
          ((({} : SearchOptions).page - 1) *
            min ((({} : SearchOptions).limit).getD defaultEnv.defaultLimit) defaultEnv.maxLimit)
          ((({} : SearchOptions).page - 1) *
            min ((({} : SearchOptions).limit).getD defaultEnv.defaultLimit) defaultEnv.maxLimit +
            min ((({} : SearchOptions).limit).getD defaultEnv.defaultLimit)
              defaultEnv.maxLimit)).map format ∧
      (searchWithYearRange repoFuse defaultEnv inv2y "abc" 2012 {} 0 0).data.total =
        (yearFilter 2012 (fuseSearch repoFuse inv2y "abc"
          (min ((({} : SearchOptions).limit).getD defaultEnv.defaultLimit)
            defaultEnv.maxLimit * ({} : SearchOptions).page * 2))).length) ∧
    ((advancedSearch repoFuse defaultEnv inv2y (some "abc") none none none (some 2010) none
        {} 0 0).map (fun res => res.data.results) =
      some ((search repoFuse defaultEnv inv2y
          (advQuery (some "abc") none none none) {} 0 0).data.results.filter
        (advKeep (some 2010) none)) ∧
      (advancedSearch repoFuse defaultEnv inv2y (some "abc") none none none (some 2010) none
        {} 0 0).map (fun res => res.data.total) =
      some (((search repoFuse defaultEnv inv2y
          (advQuery (some "abc") none none none) {} 0 0).data.results.filter
        (advKeep (some 2010) none)).length)) :=
  c4_year_filter_placement repoFuse defaultEnv inv2y "abc" 2012 {} 0 0
    (some "abc") none none none (some 2010) none
    (by decide) (by decide) (by decide)

end FuzzySearch
